import Mathlib

set_option autoImplicit false

/-!
Shallow embedding of the asynchronous execution core of the gobox repository:
the task group (pkg/async/async.go), the run group aggregator, the cancelable
mutex, the signal-based shutdown primitive, the per-task timeout decorator of
the worker pool, and the cron job service activity
(pkg/serviceactivities/cronjob/cronjob.go).

Goroutine results, select outcomes and deferred cleanups are made explicit:
each operation is embedded as a pure function from the results its
collaborators would deliver (runner return values, select readiness, close
results) to the observable outcome (returned error, logged errors, ordered
cleanup actions).
-/

/-- Errors as this library observes them: the two context sentinel errors plus
an ordinary error carrying a message, as produced by errors.New. -/
inductive GoError where
  | canceled
  | deadlineExceeded
  | mk (msg : String)
deriving DecidableEq, Repr

/-- Test performed by errors.Is(err, context.Canceled) on the unwrapped errors
this code handles: true exactly on the canceled sentinel. -/
def errorsIsCanceled : GoError → Bool
  | .canceled => true
  | _ => false

/-- Close capabilities of a runner value, as discovered by the type switch in
RunClose: a some value in the first field means the value implements the
context-aware async.Closer and its Close returns the stored result; a some
value in the second field means it implements io.Closer. -/
structure RunnerVal where
  closerResult : Option (Option GoError)
  ioCloserResult : Option (Option GoError)
deriving DecidableEq, Repr

/-- RunClose from pkg/async/async.go: a type switch that prefers the
context-aware Closer, falls back to io.Closer, and otherwise is a no-op
returning nil. -/
def RunClose (r : RunnerVal) : Option GoError :=
  match r.closerResult with
  | some res => res
  | none =>
    match r.ioCloserResult with
    | some res => res
    | none => none

/-- TaskGroup.Run from pkg/async/async.go, seen through what it logs for a
given runner result: a non-nil result that is not context.Canceled is passed
to log.Error, everything else is swallowed. The Go method itself returns
nothing, so the logged list is its only observable output. -/
def TaskGroup.Run (runResult : Option GoError) : List GoError :=
  match runResult with
  | some err => if errorsIsCanceled err then [] else [err]
  | none => []

/-- One iteration of the goroutine inside TaskGroup.Loop: whether ctx.Err()
was still nil at the top of the loop, and what the runner returned when
invoked. -/
structure LoopStep where
  ctxLive : Bool
  result : Option GoError
deriving DecidableEq, Repr

/-- Observable outcome of TaskGroup.Loop: how many times the runner was
invoked, how many of those invocations returned nil, and what was logged. -/
structure LoopOutcome where
  calls : Nat
  nilCalls : Nat
  logged : List GoError
deriving DecidableEq, Repr

/-- TaskGroup.Loop from pkg/async/async.go, driven by a finite script of
iterations. The loop checks ctx.Err() at the top of each iteration and stops
silently when it is non-nil; otherwise it invokes the runner, continues on nil
or context.Canceled results, and on any other error logs it and breaks. A none
outcome means the script ended with the loop still running. -/
def TaskGroup.Loop : List LoopStep → Option LoopOutcome
  | [] => none
  | step :: rest =>
    if step.ctxLive then
      match step.result with
      | none =>
        (TaskGroup.Loop rest).map fun o => ⟨o.calls + 1, o.nilCalls + 1, o.logged⟩
      | some err =>
        if errorsIsCanceled err then
          (TaskGroup.Loop rest).map fun o => ⟨o.calls + 1, o.nilCalls, o.logged⟩
        else some ⟨1, 0, [err]⟩
    else some ⟨0, 0, []⟩

/-- One member of a RunGroup: the error its Run returns, and its close
capabilities. Members are listed in completion order. -/
structure GroupMember where
  runErr : Option GoError
  val : RunnerVal
deriving DecidableEq, Repr

/-- Body of one errgroup goroutine in RunGroup: it returns the member run
result to the errgroup and, through defer, always invokes RunClose, logging a
non-nil close error instead of returning it. The record is (close was
invoked, close errors logged, value handed to the errgroup). -/
def runGroupMember (m : GroupMember) : Bool × List GoError × Option GoError :=
  let closeLog : List GoError :=
    match RunClose m.val with
    | some e => [e]
    | none => []
  (true, closeLog, m.runErr)

/-- Wait of golang.org/x/sync/errgroup: returns the first non-nil error among
the goroutine results, taken in completion order, and nil when all succeed. -/
def errgroupWait : List (Option GoError) → Option GoError
  | [] => none
  | some e :: _ => some e
  | none :: rest => errgroupWait rest

/-- RunGroup from pkg/async/async.go: starts every member under one errgroup
with a deferred RunClose per member, and returns the per-member cleanup
records together with the error from errgroup.Wait. -/
def RunGroup (rg : List GroupMember) : List (Bool × List GoError) × Option GoError :=
  let results := rg.map runGroupMember
  (results.map fun r => (r.1, r.2.1), errgroupWait (results.map fun r => r.2.2))

/-- MutexWithContext from pkg/async/async.go: a weight-1 counting semaphore.
The held field is the number of permits currently acquired. -/
structure MutexWithContext where
  held : Nat
deriving DecidableEq, Repr

/-- NewMutexWithContext: a fresh semaphore with no permit acquired. -/
def NewMutexWithContext : MutexWithContext := ⟨0⟩

/-- Lock acquires the single permit. In this sequential model a free mutex is
acquired at once; acquiring a held mutex can only end through the context, and
with a live context the call blocks forever (none). -/
def MutexWithContext.Lock (m : MutexWithContext) (ctxErr : Option GoError) :
    Option (Option GoError × MutexWithContext) :=
  if m.held = 0 then some (none, ⟨1⟩)
  else
    match ctxErr with
    | some e => some (some e, m)
    | none => none

/-- Unlock releases one permit through semaphore.Weighted.Release, which
aborts the program when more is released than is held. -/
def MutexWithContext.Unlock (m : MutexWithContext) : Except String MutexWithContext :=
  if m.held = 0 then .error ("semaphore: released more than held")
  else .ok ⟨m.held - 1⟩

/-- Signals trapped by Shutdown.Run. -/
inductive Sig where
  | SIGINT
  | SIGTERM
  | SIGHUP
deriving DecidableEq, Repr

/-- Rendering of a trapped signal as Go fmt prints an os.Signal value. -/
def Sig.render : Sig → String
  | .SIGINT => "interrupt"
  | .SIGTERM => "terminated"
  | .SIGHUP => "hangup"

/-- The three cases of the select in Shutdown.Run: a signal delivery, context
cancellation, and the done channel being closed. -/
inductive ShutdownCase where
  | signal (s : Sig)
  | ctxDone (e : GoError)
  | done
deriving DecidableEq, Repr

/-- Result of Shutdown.Run once its select resolves to a given case: a signal
yields an error naming the signal, context cancellation yields the context
error, the closed done channel yields nil. -/
def Shutdown.runResult : ShutdownCase → Option GoError
  | .signal s => some (.mk ("signal " ++ s.render))
  | .ctxDone e => some e
  | .done => none

/-- Cases ready in the select of Shutdown.Run, given whether a signal has been
delivered, the context error, and whether the done channel is closed. The Go
select resolves to one of the ready cases. -/
def Shutdown.ready (sig : Option Sig) (ctxErr : Option GoError) (doneClosed : Bool) :
    List ShutdownCase :=
  (match sig with
   | some s => [ShutdownCase.signal s]
   | none => []) ++
  (match ctxErr with
   | some e => [ShutdownCase.ctxDone e]
   | none => []) ++
  (if doneClosed then [ShutdownCase.done] else [])

/-- Closing a Go channel: fatal when the channel is already closed. The ok
value is the new closed state. -/
def closeChannel (alreadyClosed : Bool) : Except String Bool :=
  if alreadyClosed then .error ("close of closed channel") else .ok true

/-- Shutdown.Close closes the done channel unconditionally and returns nil.
The argument is the current closed state of the done channel; on success the
result carries the new state and the nil return value. -/
def Shutdown.Close (doneClosed : Bool) : Except String (Bool × Option GoError) :=
  match closeChannel doneClosed with
  | .error e => .error e
  | .ok b => .ok (b, none)

/-- Ordered observable actions of ServiceActivity.Run after its select
resolves: stopping the cron oracle, waiting on the drain context it returns,
and calling RunClose on the job. -/
inductive CronAction where
  | stopOracle
  | drainTick
  | closeJob
deriving DecidableEq, Repr

/-- Exit causes of the blocking select in ServiceActivity.Run: context
cancellation, explicit close of the done channel, and a captured job error
from the error channel. -/
inductive CronExit where
  | ctxDone (e : GoError)
  | doneClosed
  | jobErr (e : GoError)
deriving DecidableEq, Repr

/-- Observable outcome of ServiceActivity.Run: the ordered cleanup actions it
performed, the errors it logged, and the error it returned. -/
structure CronRunResult where
  trace : List CronAction
  logged : List GoError
  ret : Option GoError
deriving DecidableEq, Repr

/-- ServiceActivity.Run from pkg/serviceactivities/cronjob/cronjob.go. When
registering the job with the cron oracle fails, Run returns that error at
once. Otherwise it blocks in a select until one of the three exit causes
fires, then stops the oracle, waits for the drain context so any in-flight
tick finishes, calls RunClose on the job, and returns the close error only
when the select produced no error; the method contains no log call, so the
logged list is always empty. -/
def ServiceActivity.Run (addJobErr : Option GoError) (exit : CronExit)
    (job : RunnerVal) : CronRunResult :=
  match addJobErr with
  | some e => ⟨[], [], some e⟩
  | none =>
    let err : Option GoError :=
      match exit with
      | .ctxDone e => some e
      | .doneClosed => none
      | .jobErr e => some e
    let err2 := RunClose job
    let ret : Option GoError :=
      match err with
      | none => err2
      | some e => some e
    ⟨[.stopOracle, .drainTick, .closeJob], [], ret⟩

/-- Modelled from the spec: the worker pool package (pool.New, pool.WithTimeout,
pool.WithWait) is not among the sources, only its test is. Per the spec,
WithTimeout wraps every admitted task with a per-task deadline of the given
duration, counted from the moment the task passes through the decorated
scheduler. Times are in milliseconds. -/
def Pool.withTimeoutDeadline (admitTime duration : Nat) : Nat :=
  admitTime + duration

/-- Modelled from the spec: the error a task observes from its deadline-bearing
context at time t. -/
def Pool.ctxErrAt (deadline t : Nat) : Option GoError :=
  if deadline ≤ t then some .deadlineExceeded else none

/-- Modelled from the spec: with a single capacity slot, an admitted task
begins executing once the previous task holding the slot has finished and the
task itself has been admitted. -/
def Pool.execStart (prevFinish admitTime : Nat) : Nat :=
  max prevFinish admitTime

/-! Helper lemmas -/

theorem errgroupWait_eq_head (l : List (Option GoError)) :
    errgroupWait l = (l.filterMap id).head? := by
  induction l with
  | nil => rfl
  | cons a rest ih =>
    cases a with
    | some e => simp [errgroupWait]
    | none => simpa [errgroupWait] using ih

theorem errgroupWait_none_iff (l : List (Option GoError)) :
    errgroupWait l = none ↔ (l.all fun x => x.isNone) = true := by
  induction l with
  | nil => simp [errgroupWait]
  | cons a rest ih =>
    cases a with
    | some e => simp [errgroupWait]
    | none => simpa [errgroupWait] using ih

theorem runGroup_fst_all (rg : List GroupMember) :
    ((RunGroup rg).1.all fun rec => rec.1) = true := by
  simp [RunGroup, runGroupMember]

theorem runGroup_snd (rg : List GroupMember) :
    (RunGroup rg).2 = errgroupWait (rg.map GroupMember.runErr) := by
  show errgroupWait ((rg.map runGroupMember).map fun r => r.2.2)
      = errgroupWait (rg.map GroupMember.runErr)
  rw [List.map_map]
  rfl

theorem taskGroup_loop_nil_steps (k : Nat) (tail : List LoopStep) :
    TaskGroup.Loop (List.replicate k ⟨true, none⟩ ++ tail)
      = (TaskGroup.Loop tail).map fun o => ⟨o.calls + k, o.nilCalls + k, o.logged⟩ := by
  induction k with
  | zero =>
    cases h : TaskGroup.Loop tail <;> simp [h]
  | succ n ih =>
    rw [List.replicate_succ, List.cons_append]
    have hstep : TaskGroup.Loop (⟨true, none⟩ :: (List.replicate n ⟨true, none⟩ ++ tail))
        = (TaskGroup.Loop (List.replicate n ⟨true, none⟩ ++ tail)).map
            fun o => LoopOutcome.mk (o.calls + 1) (o.nilCalls + 1) o.logged := rfl
    rw [hstep, ih]
    cases TaskGroup.Loop tail <;> rfl

/-! Claim theorems -/

/-- C1 counterexample: with a captured job error and a failing Close, the cron
ServiceActivity.Run returns the job error while the losing close-time error
appears nowhere in the log, refuting the claim that the losing error is
logged rather than silently discarded. -/
theorem cron_losing_close_error_not_logged :
    (ServiceActivity.Run none (.jobErr (.mk ("job failed")))
        ⟨some (some (.mk ("close failed"))), none⟩).ret = some (.mk ("job failed")) ∧
    ¬ (GoError.mk ("close failed")) ∈
      (ServiceActivity.Run none (.jobErr (.mk ("job failed")))
        ⟨some (some (.mk ("close failed"))), none⟩).logged := by
  decide

/-- C1 amended: in every cron ServiceActivity.Run that reaches the select, the
first-encountered error (context cancellation or captured job error) is
returned; the close-time error is returned only when no earlier error exists
(explicit close); and the losing close-time error is discarded silently - the
log is always empty. -/
theorem cron_first_error_wins_close_discarded (job : RunnerVal) :
    (∀ e, (ServiceActivity.Run none (.ctxDone e) job).ret = some e) ∧
    (∀ e, (ServiceActivity.Run none (.jobErr e) job).ret = some e) ∧
    (ServiceActivity.Run none .doneClosed job).ret = RunClose job ∧
    (∀ exit, (ServiceActivity.Run none exit job).logged = []) := by
  refine ⟨fun e => rfl, fun e => rfl, rfl, fun exit => ?_⟩
  cases exit <;> rfl

/-- C2 counterexample: when registering the job with the schedule oracle fails,
ServiceActivity.Run returns at once and the Job is never closed, refuting the
claim that every exit path of Run invokes the Job Close. -/
theorem cron_registration_failure_skips_close :
    ¬ CronAction.closeJob ∈
      (ServiceActivity.Run (some (.mk ("bad cron expression"))) .doneClosed
        ⟨some none, none⟩).trace := by
  decide

/-- C2 amended: on every exit path of the cron ServiceActivity.Run that passes
schedule registration, the cleanup trace is exactly stop the oracle, drain the
in-flight tick, close the job - so the Job Close is always invoked, and only
after the oracle is stopped and the tick has finished. -/
theorem cron_drain_before_close (exit : CronExit) (job : RunnerVal) :
    (ServiceActivity.Run none exit job).trace
      = [CronAction.stopOracle, CronAction.drainTick, CronAction.closeJob] := by
  cases exit <;> rfl

/-- C3: Shutdown.Run returns an error naming the received signal (for SIGHUP,
the error reads signal hangup), the context error when the context ends first,
and nil when Close was called; after Close, with no signal and a live context,
the only ready select case is the done channel, so a later Run returns nil
immediately. -/
theorem shutdown_run_outcomes :
    (∀ s, Shutdown.runResult (.signal s) = some (.mk ("signal " ++ s.render))) ∧
    Shutdown.runResult (.signal .SIGHUP) = some (.mk ("signal hangup")) ∧
    (∀ e, Shutdown.runResult (.ctxDone e) = some e) ∧
    Shutdown.runResult .done = none ∧
    Shutdown.ready none none true = [ShutdownCase.done] := by
  refine ⟨fun s => rfl, by decide, fun e => rfl, rfl, rfl⟩

/-- C4: RunGroup invokes close for every member regardless of failures, the
returned error is the first run error across members in completion order and
never includes close-time errors, and it is nil exactly when every member run
succeeds. -/
theorem runGroup_close_all_and_first_error (rg : List GroupMember) :
    ((RunGroup rg).1.all fun rec => rec.1) = true ∧
    (RunGroup rg).2 = ((rg.map GroupMember.runErr).filterMap id).head? ∧
    ((RunGroup rg).2 = none ↔ (rg.all fun m => m.runErr.isNone) = true) := by
  refine ⟨runGroup_fst_all rg, ?_, ?_⟩
  · rw [runGroup_snd, errgroupWait_eq_head]
  · rw [runGroup_snd, errgroupWait_none_iff]
    have hmap : ∀ l : List GroupMember,
        ((l.map GroupMember.runErr).all fun x => x.isNone)
          = (l.all fun m => m.runErr.isNone) := by
      intro l
      induction l with
      | nil => rfl
      | cons a t ih => simp [List.all_cons, ih]
    rw [hmap rg]

/-- C5: TaskGroup.Run hands nothing back to the caller and only logs: a
non-cancellation error from the runner is logged, a context.Canceled result or
a nil result leaves the log empty, and context.DeadlineExceeded counts as a
real error and is logged. -/
theorem taskGroup_run_swallows_and_logs :
    (∀ s, TaskGroup.Run (some (.mk s)) = [GoError.mk s]) ∧
    TaskGroup.Run (some .canceled) = [] ∧
    TaskGroup.Run (some .deadlineExceeded) = [GoError.deadlineExceeded] ∧
    TaskGroup.Run none = [] :=
  ⟨fun s => rfl, rfl, rfl, rfl⟩

/-- C6: TaskGroup.Loop keeps invoking the runner while it returns nil and the
context is live, stops and logs at the first non-cancellation error, stops
silently when the context is cancelled, and in the concrete scenario of three
nil returns followed by an error the loop terminates after the fourth call
with the nil counter at three, so Wait returns. -/
theorem taskGroup_loop_stops_on_error :
    (∀ k s, TaskGroup.Loop (List.replicate k ⟨true, none⟩ ++ [⟨true, some (.mk s)⟩])
        = some ⟨k + 1, k, [GoError.mk s]⟩) ∧
    (∀ (k : Nat) (rest : List LoopStep),
      TaskGroup.Loop (List.replicate k ⟨true, none⟩ ++ ⟨false, none⟩ :: rest)
        = some ⟨k, k, []⟩) ∧
    TaskGroup.Loop (List.replicate 3 ⟨true, none⟩ ++ [⟨true, some (.mk ("some error"))⟩])
        = some ⟨4, 3, [GoError.mk ("some error")]⟩ := by
  refine ⟨fun k s => ?_, fun k rest => ?_, by decide⟩
  · have h1 : TaskGroup.Loop [⟨true, some (.mk s)⟩] = some ⟨1, 0, [GoError.mk s]⟩ := rfl
    rw [taskGroup_loop_nil_steps, h1]
    simp [Nat.add_comm]
  · have h2 : TaskGroup.Loop (⟨false, none⟩ :: rest) = some ⟨0, 0, []⟩ := rfl
    rw [taskGroup_loop_nil_steps, h2]
    simp

/-- C7: Unlock without a prior successful Lock aborts: on a fresh
MutexWithContext the very first Unlock fails loudly, and after one successful
Lock and Unlock pair the next Unlock fails loudly as well instead of silently
changing the permit state. -/
theorem mutex_extra_unlock_fails_loudly :
    MutexWithContext.Unlock NewMutexWithContext
        = .error ("semaphore: released more than held") ∧
    MutexWithContext.Lock NewMutexWithContext none = some (none, ⟨1⟩) ∧
    MutexWithContext.Unlock ⟨1⟩ = .ok ⟨0⟩ ∧
    MutexWithContext.Unlock ⟨0⟩ = .error ("semaphore: released more than held") :=
  ⟨rfl, rfl, rfl, rfl⟩

/-- C8: Shutdown.Close is not idempotent: the first Close closes the done
channel and returns nil, while a second Close hits the already-closed one-shot
channel and is fatal. -/
theorem shutdown_close_not_idempotent :
    Shutdown.Close false = .ok (true, none) ∧
    Shutdown.Close true = .error ("close of closed channel") :=
  ⟨rfl, rfl⟩

/-- C9: under the WithTimeout decorator every admitted task carries a deadline
of the given duration from its admission; a task whose execution start is
delayed past that deadline by the previous occupant of the sole capacity slot
observes the deadline-exceeded error through its context. -/
theorem pool_timeout_observed_by_delayed_task
    (admitAt dur prevFinish : Nat)
    (h : Pool.withTimeoutDeadline admitAt dur ≤ prevFinish) :
    Pool.ctxErrAt (Pool.withTimeoutDeadline admitAt dur) (Pool.execStart prevFinish admitAt)
      = some GoError.deadlineExceeded := by
  have hle : Pool.withTimeoutDeadline admitAt dur ≤ Pool.execStart prevFinish admitAt :=
    le_trans h (le_max_left _ _)
  unfold Pool.ctxErrAt
  rw [if_pos hle]

/-- Witness for C9 at the numbers of Scenario D: a 5 millisecond timeout, both
tasks admitted at time 0, the first task holding the single slot until time
10, so the second task starts past its deadline and sees deadline exceeded. -/
theorem pool_timeout_observed_by_delayed_task_witness :
    Pool.withTimeoutDeadline 0 5 ≤ 10 ∧
    Pool.ctxErrAt (Pool.withTimeoutDeadline 0 5) (Pool.execStart 10 0)
      = some GoError.deadlineExceeded :=
  ⟨by decide, pool_timeout_observed_by_delayed_task 0 5 10 (by decide)⟩

/-- C10: RunClose dispatches on capability: the context-aware Closer result is
returned whenever present and takes precedence over any io.Closer, the
io.Closer result is returned otherwise, and a runner with neither capability
is a safe no-op returning nil. -/
theorem runClose_capability_dispatch :
    (∀ res other, RunClose ⟨some res, other⟩ = res) ∧
    (∀ res, RunClose ⟨none, some res⟩ = res) ∧
    RunClose ⟨none, none⟩ = none :=
  ⟨fun res other => rfl, fun res => rfl, rfl⟩
